import Mathlib

/-!
# Verification of the kuber-cron scheduler (`src/scheduler.py`)

A shallow embedding of the job lifecycle and crash-recovery subsystem of
`KubernetesCronScheduler`: crontab parsing, the in-memory registry and
retry counters, the persisted running-jobs state, job execution with its
retry/escalation branches, and startup recovery.

Python dictionaries (`self.jobs`, `self.job_retries`, `self.running_jobs`)
are modelled as insertion-ordered association lists with the helpers
`dlookup`, `dinsert`, `derase` below; the APScheduler job store is a list
of `Trigger` entries (`add_job` with `replace_existing=True` first drops
any entry with the same id).  External effects (state-file saves, the
subprocess launch, the Kubernetes API calls) are recorded as an event
trace so that ordering properties can be stated.
-/

namespace KuberCron

/-- Association-list lookup, first matching key wins (Python `d[k]` /
`d.get(k)` on a dict with unique keys). -/
def dlookup {α : Type} (k : String) : List (String × α) → Option α
  | [] => none
  | (k2, v) :: rest => if k2 = k then some v else dlookup k rest

/-- Association-list update (`d[k] = v`): replaces the first binding of `k`
in place, or appends a new binding at the end (Python dict insertion
order). -/
def dinsert {α : Type} (k : String) (v : α) : List (String × α) → List (String × α)
  | [] => [(k, v)]
  | (k2, v2) :: rest => if k2 = k then (k, v) :: rest else (k2, v2) :: dinsert k v rest

/-- Association-list removal (`del d[k]`): drops the first binding of `k`. -/
def derase {α : Type} (k : String) : List (String × α) → List (String × α)
  | [] => []
  | (k2, v2) :: rest => if k2 = k then rest else (k2, v2) :: derase k rest

/-! ## Crontab parsing (`_parse_crontab_line`, `_get_job_name`) -/

/-- Helper for `pySplit`: scan the characters, accumulating the current
token in reverse; whitespace ends the current token (if non-empty). -/
def splitWsAux : List Char → List Char → List String
  | [], acc => if acc = [] then [] else [String.mk acc.reverse]
  | c :: rest, acc =>
    if c.isWhitespace then
      if acc = [] then splitWsAux rest []
      else String.mk acc.reverse :: splitWsAux rest []
    else splitWsAux rest (c :: acc)

/-- Python `str.split()` with no argument: split on runs of whitespace,
discarding empty pieces. -/
def pySplit (s : String) : List String :=
  splitWsAux s.toList []

/-- The token scan of `_parse_crontab_line` over `parts[5:]` (accumulator =
`command_parts` in reverse).  A `>>` token followed by another token sets
the log file and stops the scan (`break`); a trailing `>>` with nothing
after it is skipped; a `2>&1` token is skipped (`continue`); anything else
is appended to the command. -/
def scanCommand : List String → List String → Option String × List String
  | [], acc => (none, acc.reverse)
  | p :: rest, acc =>
    if p = ">>" then
      match rest with
      | next :: _ => (some next, acc.reverse)
      | [] => (none, acc.reverse)
    else if p = "2>&1" then scanCommand rest acc
    else scanCommand rest (p :: acc)

/-- Model of `_parse_crontab_line` on the whitespace token list of the line: fewer
than six tokens is the malformed branch (the code logs a warning and
returns `(None, None, None)`); otherwise the first five tokens joined by a
space are the schedule and the scan above produces the command and the
optional log file. -/
def parseTokens (parts : List String) :
    Option String × Option String × Option String :=
  if parts.length < 6 then (none, none, none)
  else
    let schedule := " ".intercalate (parts.take 5)
    let (log_file, command_parts) := scanCommand (parts.drop 5) []
    (some schedule, some (" ".intercalate command_parts), log_file)

/-- Model of `_parse_crontab_line(line)`: split the line into whitespace tokens and
parse them. -/
def parseCrontabLine (line : String) :
    Option String × Option String × Option String :=
  parseTokens (pySplit line)

/-- Helper for `basename`: keep the characters seen since the last `/`. -/
def basenameAux : List Char → List Char → List Char
  | [], acc => acc.reverse
  | c :: rest, acc => if c = '/' then basenameAux rest [] else basenameAux rest (c :: acc)

/-- Model of `os.path.basename` for POSIX paths: the part after the last `/`. -/
def basename (p : String) : String :=
  String.mk (basenameAux p.toList [])

/-- Index of the last `.` in a character list, if any. -/
def lastDotIdx (cs : List Char) : Option Nat :=
  let r := cs.reverse.indexOf '.'
  if r < cs.length then some (cs.length - 1 - r) else none

/-- The root part of `os.path.splitext` applied to a basename: cut at the
last dot, except that a name whose characters before that dot are all dots
(e.g. `.bashrc`, `..py`) is returned whole. -/
def splitextRoot (s : String) : String :=
  match lastDotIdx s.toList with
  | none => s
  | some i =>
    if (s.toList.take i).any (fun c => c ≠ '.') then
      String.mk (s.toList.take i)
    else s

/-- Model of `_get_job_name(command)`: basename of the last whitespace token with
its extension stripped; if the command has no tokens (the `except` branch:
`command.split()[-1]` raises `IndexError`), fall back to the command with
spaces replaced by underscores, truncated to 50 characters. -/
def getJobName (command : String) : String :=
  match (pySplit command).getLast? with
  | some fp => splitextRoot (basename fp)
  | none =>
    String.mk (((command.toList).map (fun c => if c = ' ' then '_' else c)).take 50)

/-- Python `str.strip()`: remove whitespace from both ends. -/
def pyStrip (s : String) : String :=
  String.mk (((s.toList.dropWhile Char.isWhitespace).reverse.dropWhile Char.isWhitespace).reverse)

/-- Test whether the stripped line begins with the comment character, as in the Python startswith check. -/
def startsWithHash (s : String) : Bool :=
  match s.toList with
  | c :: _ => c = '#'
  | [] => false

/-! ## Scheduler state -/

/-- A job definition as stored in `self.jobs` by `load_jobs_from_crontab` /
`add_job` (the dict with keys `schedule`, `command`, `log_file`,
`retries`). -/
structure JobConfig where
  schedule : String
  command : String
  log_file : Option String
  retries : Nat
deriving Repr, DecidableEq

/-- A RunningJobRecord: the value stored in `self.running_jobs[job_name]`
(keys `start_time` and `command`). -/
structure RunRecord where
  start_time : String
  command : String
deriving Repr, DecidableEq

/-- The trigger kind of an APScheduler job entry: a cron trigger
(`CronTrigger.from_crontab(schedule)`) or a one-shot `date` trigger. -/
inductive TrigKind where
  | cron (schedule : String)
  | date
deriving Repr, DecidableEq

/-- An entry of the APScheduler job store: its id, trigger kind, and the
job-name argument passed to `_execute_job`. -/
structure Trigger where
  id : String
  kind : TrigKind
  arg : String
deriving Repr, DecidableEq

/-- The scheduler state: `self.jobs`, `self.job_retries`,
`self.running_jobs`, the persisted `running_jobs` map inside
`state.json` (as written by the last `_save_state`), the APScheduler job
store, and the four Prometheus counters. -/
structure Sched where
  jobs : List (String × JobConfig)
  job_retries : List (String × Nat)
  running_jobs : List (String × RunRecord)
  persisted : List (String × RunRecord)
  triggers : List Trigger
  execCount : Nat
  failCount : Nat
  retryCount : Nat
  recovCount : Nat
deriving Repr, DecidableEq

/-- Observable events emitted during `_execute_job` /
`_handle_job_failure`, in program order: each `_save_state` call with the
snapshot it persists, the subprocess launch and its exit, the invocation
of the escalator (`_handle_job_failure`), the Kubernetes API
read-and-delete attempt, and its failure branch (the `except` of
`_handle_job_failure`, which logs and returns normally). -/
inductive Event where
  | savedState (running : List (String × RunRecord))
  | launched (command : String)
  | exited (code : Nat)
  | escalated (name : String)
  | apiCall (pod : String)
  | apiCallFailed (pod : String)
deriving Repr, DecidableEq

/-! ## `add_job` -/

/-- Model of `add_job(job_name, job_config)`: if the name is already registered,
`scheduler.remove_job(job_name)` cancels the old trigger; the definition
is stored, the retry counter is reset to 0, and a cron trigger with
`id=job_name` and `replace_existing=True` (drop any same-id entry, then
append) is registered. -/
def add_job (name : String) (cfg : JobConfig) (s : Sched) : Sched :=
  let trigs1 :=
    if (dlookup name s.jobs).isSome then
      s.triggers.filter (fun t => t.id ≠ name)
    else s.triggers
  { s with
    jobs := dinsert name cfg s.jobs
    job_retries := dinsert name 0 s.job_retries
    triggers := (trigs1.filter (fun t => t.id ≠ name)) ++ [⟨name, .cron cfg.schedule, name⟩] }

/-! ## `_handle_job_failure` (the FailureEscalator) -/

/-- Model of `_handle_job_failure(job_name)`: read the current pod then request its
deletion, all inside one `try`; `api = true` means the API calls succeed,
`api = false` means they raise, in which case the `except` branch logs the
failure and returns normally.  Either way the function performs exactly
one read-and-delete attempt, never re-raises, and leaves the scheduler
state (jobs, retry counters, triggers) untouched. -/
def handleJobFailure (api : Bool) (pod : String) : List Event :=
  if api then [Event.apiCall pod]
  else [Event.apiCall pod, Event.apiCallFailed pod]

/-! ## `_execute_job` -/

/-- The `finally` block of `_execute_job`: if the job is still in
`running_jobs`, delete it and `_save_state()`. -/
def finallyBlock (name : String) (s : Sched) (evs : List Event) : Sched × List Event :=
  if (dlookup name s.running_jobs).isSome then
    let running2 := derase name s.running_jobs
    ({ s with running_jobs := running2, persisted := running2 },
     evs ++ [Event.savedState running2])
  else (s, evs)

/-- Model of `_execute_job(job_name)`.  Parameters: `now` is the
`datetime.now().isoformat()` timestamp, `api` tells whether the
Kubernetes API calls of an escalation succeed, `ec` is the exit code of
the launched command (`ec = 0` is the success branch; any other exit
raises into the `except` branch, which is also where launch exceptions
land), `pod` is `self.pod_name`.

The model assumes `job_name ∈ self.jobs` and, on the failure branch,
`job_name ∈ self.job_retries` — the invariants `add_job` establishes for
every name it schedules; a missing name would raise `KeyError` in Python
and is modelled as a no-op (theorems assume the lookups succeed, making
the default irrelevant).

Steps, in code order: write the RunningJobRecord and `_save_state()`;
launch the subprocess and wait; on exit 0 increment the execution counter
and reset the retry counter; otherwise increment the failure counter, the
retry counter for the job and the retry metric, then escalate when the
new count has reached `retries`; finally remove the record and
`_save_state()`. -/
def executeJob (now : String) (api : Bool) (ec : Nat) (pod : String)
    (name : String) (s : Sched) : Sched × List Event :=
  match dlookup name s.jobs with
  | none => (s, [])
  | some cfg =>
    let rec0 : RunRecord := ⟨now, cfg.command⟩
    let running1 := dinsert name rec0 s.running_jobs
    let s1 := { s with running_jobs := running1, persisted := running1 }
    let ev1 := [Event.savedState running1, Event.launched cfg.command, Event.exited ec]
    if ec = 0 then
      let s2 := { s1 with
        execCount := s1.execCount + 1
        job_retries := dinsert name 0 s1.job_retries }
      finallyBlock name s2 ev1
    else
      let newr := (dlookup name s1.job_retries).getD 0 + 1
      let s2 := { s1 with
        failCount := s1.failCount + 1
        job_retries := dinsert name newr s1.job_retries
        retryCount := s1.retryCount + 1 }
      if newr ≥ cfg.retries then
        finallyBlock name s2 (ev1 ++ [Event.escalated name] ++ handleJobFailure api pod)
      else
        finallyBlock name s2 ev1

/-! ## `_recover_interrupted_jobs` -/

/-- One iteration of the recovery loop, acting on the accumulated
(trigger store, recovery counter): a record whose name is still in
`self.jobs` gets an immediate one-shot `date` trigger with id
`recovery_<name>` (`replace_existing=True`: drop any same-id entry, then
append) and bumps the recovery counter; other records are skipped. -/
def recoveryStep (jobs : List (String × JobConfig)) (acc : List Trigger × Nat)
    (p : String × RunRecord) : List Trigger × Nat :=
  if (dlookup p.1 jobs).isSome then
    ((acc.1.filter (fun t => t.id ≠ "recovery_" ++ p.1)) ++
       [⟨"recovery_" ++ p.1, .date, p.1⟩],
     acc.2 + 1)
  else acc

/-- Model of `_recover_interrupted_jobs()`: iterate over the loaded
`running_jobs` records (the loop reads `self.jobs` and mutates only the
trigger store and the recovery counter), then set `running_jobs = {}` and
`_save_state()`. -/
def recoverInterruptedJobs (s : Sched) : Sched :=
  let tn := s.running_jobs.foldl (recoveryStep s.jobs) (s.triggers, s.recovCount)
  { s with triggers := tn.1, recovCount := tn.2, running_jobs := [], persisted := [] }

/-! ## `load_jobs_from_crontab` -/

/-- The per-line treatment of `load_jobs_from_crontab`: strip the line,
skip empty and `#`-comment lines, parse the rest, and (when schedule and
command are both non-`None` and non-empty — Python truthiness of
`if schedule and command`) produce the `add_job` call
`(job_name, {'schedule', 'command', 'log_file', 'retries': 3})`. -/
def lineJob (line : String) : Option (String × JobConfig) :=
  let l := pyStrip line
  if l = "" || startsWithHash l then none
  else
    match parseCrontabLine l with
    | (some sched, some cmd, lf) =>
      if sched ≠ "" ∧ cmd ≠ "" then
        some (getJobName cmd, ⟨sched, cmd, lf, 3⟩)
      else none
    | _ => none

/-- The sequence of `add_job` calls `load_jobs_from_crontab` makes for a
file given as its list of lines. -/
def parsedJobs (lines : List String) : List (String × JobConfig) :=
  lines.filterMap lineJob

/-- Model of `load_jobs_from_crontab(path)` on a file with the given lines: add
each parsed job in file order, then run `_recover_interrupted_jobs`. -/
def loadJobsFromCrontab (lines : List String) (s : Sched) : Sched :=
  recoverInterruptedJobs
    ((parsedJobs lines).foldl (fun acc p => add_job p.1 p.2 acc) s)

/-! ## Association-list lemmas -/

theorem dlookup_dinsert_self {α : Type} (k : String) (v : α) (l : List (String × α)) :
    dlookup k (dinsert k v l) = some v := by
  induction l with
  | nil => simp [dinsert, dlookup]
  | cons hd tl ih =>
    by_cases h : hd.1 = k
    · simp [dinsert, dlookup, h]
    · simp [dinsert, dlookup, h, ih]

theorem dinsert_of_lookup_none {α : Type} {k : String} (v : α) {l : List (String × α)}
    (h : dlookup k l = none) : dinsert k v l = l ++ [(k, v)] := by
  induction l with
  | nil => simp [dinsert]
  | cons hd tl ih =>
    by_cases hk : hd.1 = k
    · simp [dlookup, hk] at h
    · simp [dlookup, hk] at h
      simp [dinsert, hk, ih h]

theorem derase_append_single {α : Type} {k : String} (v : α) {l : List (String × α)}
    (h : dlookup k l = none) : derase k (l ++ [(k, v)]) = l := by
  induction l with
  | nil => simp [derase]
  | cons hd tl ih =>
    by_cases hk : hd.1 = k
    · simp [dlookup, hk] at h
    · simp [dlookup, hk] at h
      simp [derase, hk, ih h]

theorem dlookup_append_single_self {α : Type} {k : String} (v : α) {l : List (String × α)}
    (h : dlookup k l = none) : dlookup k (l ++ [(k, v)]) = some v := by
  induction l with
  | nil => simp [dlookup]
  | cons hd tl ih =>
    by_cases hk : hd.1 = k
    · simp [dlookup, hk] at h
    · simp [dlookup, hk] at h ⊢
      exact ih h

theorem dinsert_dinsert {α : Type} (k : String) (v v2 : α) (l : List (String × α)) :
    dinsert k v (dinsert k v2 l) = dinsert k v l := by
  induction l with
  | nil => simp [dinsert]
  | cons hd tl ih =>
    by_cases hk : hd.1 = k
    · simp [dinsert, hk]
    · simp [dinsert, hk, ih]

/-! ## String helper lemmas -/

theorem string_append_left_cancel {p a b : String} (h : p ++ a = p ++ b) : a = b := by
  apply String.ext
  have hd : (p ++ a).data = (p ++ b).data := congrArg String.data h
  rw [String.data_append, String.data_append] at hd
  exact List.append_cancel_left hd

/-! ## `scanCommand` against trailing redirections -/

/-- The trailing redirection shapes recognised by `_parse_crontab_line`
after the command tokens, together with the log file they produce:
nothing; a bare final `>>`; `>> path` (anything after the path is ignored
because the scan `break`s); or a `2>&1` in front of any of these. -/
inductive RedirTail : List String → Option String → Prop where
  | nil : RedirTail [] none
  | lastRedir : RedirTail [">>"] none
  | redir (p : String) (rest : List String) : RedirTail (">>" :: p :: rest) (some p)
  | stderrMerge {t : List String} {lf : Option String} :
      RedirTail t lf → RedirTail ("2>&1" :: t) lf

theorem scanCommand_redirTail {tail : List String} {lf : Option String}
    (acc : List String) (ht : RedirTail tail lf) :
    scanCommand tail acc = (lf, acc.reverse) := by
  induction ht with
  | nil => simp [scanCommand]
  | lastRedir => simp [scanCommand]
  | redir p rest => simp [scanCommand]
  | stderrMerge _ ih => simpa [scanCommand] using ih

theorem scanCommand_spec {cmd tail : List String} {lf : Option String}
    (acc : List String)
    (h : ∀ p ∈ cmd, p ≠ ">>" ∧ p ≠ "2>&1") (ht : RedirTail tail lf) :
    scanCommand (cmd ++ tail) acc = (lf, acc.reverse ++ cmd) := by
  induction cmd generalizing acc with
  | nil => simpa using scanCommand_redirTail acc ht
  | cons p rest ih =>
    have hp := h p (List.mem_cons_self p rest)
    have hrest : ∀ q ∈ rest, q ≠ ">>" ∧ q ≠ "2>&1" :=
      fun q hq => h q (List.mem_cons_of_mem p hq)
    show scanCommand (p :: (rest ++ tail)) acc = _
    rw [scanCommand.eq_def]
    simp only [hp.1, hp.2, if_false]
    rw [ih (p :: acc) hrest]
    simp

/-! ## The recovery fold -/

theorem recovery_foldl (jobs : List (String × JobConfig))
    (entries : List (String × RunRecord)) (trigs : List Trigger) (n : Nat)
    (hn : (entries.map Prod.fst).Nodup)
    (hclean : ∀ t ∈ trigs, ∀ p ∈ entries, t.id ≠ "recovery_" ++ p.1) :
    entries.foldl (recoveryStep jobs) (trigs, n) =
      (trigs ++ (entries.filter (fun p => (dlookup p.1 jobs).isSome)).map
          (fun p => ⟨"recovery_" ++ p.1, .date, p.1⟩),
       n + (entries.filter (fun p => (dlookup p.1 jobs).isSome)).length) := by
  induction entries generalizing trigs n with
  | nil => simp
  | cons p rest ih =>
    have hn' : (rest.map Prod.fst).Nodup := (List.nodup_cons.mp (by simpa using hn)).2
    have hp_notin : p.1 ∉ rest.map Prod.fst := (List.nodup_cons.mp (by simpa using hn)).1
    rw [List.foldl_cons]
    by_cases hj : (dlookup p.1 jobs).isSome
    · have hstep : recoveryStep jobs (trigs, n) p =
          (trigs ++ [⟨"recovery_" ++ p.1, .date, p.1⟩], n + 1) := by
        have hfilter : trigs.filter (fun t => t.id ≠ "recovery_" ++ p.1) = trigs := by
          rw [List.filter_eq_self]
          intro t htm
          simpa using hclean t htm p (List.mem_cons_self p rest)
        simp [recoveryStep, hj, hfilter]
        intro a ha
        simpa using hclean a ha p (List.mem_cons_self p rest)
      have hclean' : ∀ t ∈ trigs ++ [(⟨"recovery_" ++ p.1, .date, p.1⟩ : Trigger)],
          ∀ q ∈ rest, t.id ≠ "recovery_" ++ q.1 := by
        intro t htm q hq
        rcases List.mem_append.mp htm with h1 | h2
        · exact hclean t h1 q (List.mem_cons_of_mem p hq)
        · simp at h2
          subst h2
          simp only
          intro hcontra
          exact hp_notin (string_append_left_cancel hcontra ▸ List.mem_map_of_mem Prod.fst hq)
      rw [hstep, ih _ _ hn' hclean']
      simp [hj, List.filter_cons, Nat.add_comm 1, Nat.add_assoc]
    · have hstep : recoveryStep jobs (trigs, n) p = (trigs, n) := by
        rw [recoveryStep, if_neg hj]
      have hclean' : ∀ t ∈ trigs, ∀ q ∈ rest, t.id ≠ "recovery_" ++ q.1 :=
        fun t htm q hq => hclean t htm q (List.mem_cons_of_mem p hq)
      rw [hstep, ih _ _ hn' hclean']
      simp [hj, List.filter_cons]

/-! ## Shape of a single `_execute_job` run -/

theorem executeJob_success (now : String) (api : Bool) (pod name : String)
    (s : Sched) (cfg : JobConfig)
    (hj : dlookup name s.jobs = some cfg)
    (hnr : dlookup name s.running_jobs = none) :
    executeJob now api 0 pod name s =
      ({ s with
          execCount := s.execCount + 1
          job_retries := dinsert name 0 s.job_retries
          persisted := s.running_jobs },
       [Event.savedState (s.running_jobs ++ [(name, ⟨now, cfg.command⟩)]),
        Event.launched cfg.command, Event.exited 0,
        Event.savedState s.running_jobs]) := by
  have hins : dinsert name (⟨now, cfg.command⟩ : RunRecord) s.running_jobs =
      s.running_jobs ++ [(name, ⟨now, cfg.command⟩)] := dinsert_of_lookup_none _ hnr
  have hlk : dlookup name (s.running_jobs ++ [(name, (⟨now, cfg.command⟩ : RunRecord))]) =
      some ⟨now, cfg.command⟩ := dlookup_append_single_self _ hnr
  have hdel : derase name (s.running_jobs ++ [(name, (⟨now, cfg.command⟩ : RunRecord))]) =
      s.running_jobs := derase_append_single _ hnr
  simp [executeJob, hj, finallyBlock, hins, hlk, hdel]

theorem executeJob_failure (now : String) (api : Bool) (ec : Nat) (pod name : String)
    (s : Sched) (cfg : JobConfig) (r : Nat)
    (hj : dlookup name s.jobs = some cfg)
    (hr : dlookup name s.job_retries = some r)
    (hnr : dlookup name s.running_jobs = none)
    (hec : ec ≠ 0) :
    executeJob now api ec pod name s =
      ({ s with
          failCount := s.failCount + 1
          retryCount := s.retryCount + 1
          job_retries := dinsert name (r + 1) s.job_retries
          persisted := s.running_jobs },
       [Event.savedState (s.running_jobs ++ [(name, ⟨now, cfg.command⟩)]),
        Event.launched cfg.command, Event.exited ec] ++
       (if cfg.retries ≤ r + 1 then Event.escalated name :: handleJobFailure api pod else []) ++
       [Event.savedState s.running_jobs]) := by
  have hins : dinsert name (⟨now, cfg.command⟩ : RunRecord) s.running_jobs =
      s.running_jobs ++ [(name, ⟨now, cfg.command⟩)] := dinsert_of_lookup_none _ hnr
  have hlk : dlookup name (s.running_jobs ++ [(name, (⟨now, cfg.command⟩ : RunRecord))]) =
      some ⟨now, cfg.command⟩ := dlookup_append_single_self _ hnr
  have hdel : derase name (s.running_jobs ++ [(name, (⟨now, cfg.command⟩ : RunRecord))]) =
      s.running_jobs := derase_append_single _ hnr
  by_cases hb : cfg.retries ≤ r + 1
  · simp [executeJob, hj, hr, hec, finallyBlock, hins, hlk, hdel, hb]
  · simp [executeJob, hj, hr, hec, finallyBlock, hins, hlk, hdel, hb]

/-- Shared helper: `parseTokens` on five schedule tokens followed by
command tokens (none of which is `>>` or `2>&1`) and a trailing
redirection. -/
theorem parseTokens_split (s5 cmd tail : List String) (lf : Option String)
    (h5 : s5.length = 5) (hlen : 6 ≤ (s5 ++ cmd ++ tail).length)
    (hcmd : ∀ p ∈ cmd, p ≠ ">>" ∧ p ≠ "2>&1") (ht : RedirTail tail lf) :
    parseTokens (s5 ++ cmd ++ tail) =
      (some (" ".intercalate s5), some (" ".intercalate cmd), lf) := by
  have hnot : ¬ (s5 ++ cmd ++ tail).length < 6 := Nat.not_lt.mpr hlen
  have htake : (s5 ++ (cmd ++ tail)).take 5 = s5 := List.take_left' h5
  have hdrop : (s5 ++ (cmd ++ tail)).drop 5 = cmd ++ tail := List.drop_left' h5
  have hscan := scanCommand_spec ([] : List String) hcmd ht
  simp only [parseTokens, hnot, if_false, List.append_assoc, htake, hdrop, hscan]
  simp only [List.length_append] at hlen ⊢
  simp
  omega

/-! ## Claims -/

/-- Claim C4 — the concrete crontab line
`*/5 * * * * /usr/bin/python backup.py >> /var/log/backup.log` parses to
schedule `*/5 * * * *`, command `/usr/bin/python backup.py`, log file
`/var/log/backup.log`, and job name `backup`; and in general, for any
token list made of five schedule tokens, command tokens free of `>>` and
`2>&1`, and a trailing redirection (`RedirTail`), `_parse_crontab_line`
returns exactly the first five tokens (space-joined) as the schedule and
exactly the command tokens (space-joined) as the command. -/
theorem parse_backup_line_c4 :
    (parseCrontabLine "*/5 * * * * /usr/bin/python backup.py >> /var/log/backup.log" =
        (some "*/5 * * * *", some "/usr/bin/python backup.py", some "/var/log/backup.log") ∧
      getJobName "/usr/bin/python backup.py" = "backup") ∧
    (∀ (s5 cmd tail : List String) (lf : Option String),
      s5.length = 5 → 6 ≤ (s5 ++ cmd ++ tail).length →
      (∀ p ∈ cmd, p ≠ ">>" ∧ p ≠ "2>&1") → RedirTail tail lf →
      parseTokens (s5 ++ cmd ++ tail) =
        (some (" ".intercalate s5), some (" ".intercalate cmd), lf)) := by
  constructor
  · constructor
    · decide
    · decide
  · intro s5 cmd tail lf h5 hlen hcmd ht
    exact parseTokens_split s5 cmd tail lf h5 hlen hcmd ht

/-- Witness for C4: the general statement applied to the token list of a
concrete line with a `2>&1` and a `>> path` redirection. -/
theorem parse_backup_line_c4_witness :
    parseTokens (["*", "*", "*", "*", "*"] ++ ["echo", "hi"] ++ ["2>&1", ">>", "/l"]) =
      (some "* * * * *", some "echo hi", some "/l") := by
  have h := parse_backup_line_c4.2 ["*", "*", "*", "*", "*"] ["echo", "hi"]
    ["2>&1", ">>", "/l"] (some "/l") (by decide) (by decide) (by decide)
    (RedirTail.stderrMerge (RedirTail.redir "/l" []))
  simpa using h

/-- Claim C8 — a non-empty, non-comment crontab line with fewer than six
whitespace tokens takes the malformed branch of `_parse_crontab_line`
(which logs the warning and returns `(None, None, None)` — the only
branch producing that triple), yields no job, and leaves the jobs
produced for all other lines of the file exactly as if the line were
absent. -/
theorem malformed_line_skipped_c8 (line : String)
    (hne : pyStrip line ≠ "")
    (hnc : startsWithHash (pyStrip line) = false)
    (hlen : (pySplit (pyStrip line)).length < 6) :
    parseCrontabLine (pyStrip line) = (none, none, none) ∧
    lineJob line = none ∧
    ∀ xs ys : List String, parsedJobs (xs ++ line :: ys) = parsedJobs (xs ++ ys) := by
  have hparse : parseCrontabLine (pyStrip line) = (none, none, none) := by
    simp [parseCrontabLine, parseTokens, hlen]
  have hjob : lineJob line = none := by
    simp [lineJob, hne, hnc, hparse]
  refine ⟨hparse, hjob, ?_⟩
  intro xs ys
  simp [parsedJobs, List.filterMap_append, hjob]

/-- Witness for C8 at the concrete malformed line `* * * * command` (five
tokens), inserted between two well-formed lines. -/
theorem malformed_line_skipped_c8_witness :
    parseCrontabLine (pyStrip "* * * * command") = (none, none, none) ∧
    lineJob "* * * * command" = none ∧
    parsedJobs (["0 0 * * * a.py"] ++ "* * * * command" :: ["0 1 * * * b.py"]) =
      parsedJobs (["0 0 * * * a.py"] ++ ["0 1 * * * b.py"]) := by
  have h := malformed_line_skipped_c8 "* * * * command" (by decide) (by decide) (by decide)
  exact ⟨h.1, h.2.1, h.2.2 ["0 0 * * * a.py"] ["0 1 * * * b.py"]⟩

/-- Claim C10 — a line with at least six tokens whose post-schedule tokens
are only redirection tokens parses to an empty command and is dropped by
`load_jobs_from_crontab` without the malformed-line warning (its parse
result is not the warning triple `(None, None, None)`); and a `>>`
appearing as the final token is dropped from the command and produces no
log file. -/
theorem redirection_only_line_c10 (line : String) (s5 tail : List String)
    (lf : Option String)
    (hne : pyStrip line ≠ "")
    (hnc : startsWithHash (pyStrip line) = false)
    (htok : pySplit (pyStrip line) = s5 ++ tail)
    (h5 : s5.length = 5)
    (hlen : 6 ≤ (s5 ++ tail).length)
    (ht : RedirTail tail lf) :
    parseCrontabLine (pyStrip line) = (some (" ".intercalate s5), some "", lf) ∧
    lineJob line = none ∧
    parseCrontabLine (pyStrip line) ≠ (none, none, none) ∧
    (∀ (s5x cmd : List String), s5x.length = 5 →
      (∀ p ∈ cmd, p ≠ ">>" ∧ p ≠ "2>&1") →
      parseTokens (s5x ++ cmd ++ [">>"]) =
        (some (" ".intercalate s5x), some (" ".intercalate cmd), none)) := by
  have hparse : parseCrontabLine (pyStrip line) = (some (" ".intercalate s5), some "", lf) := by
    have h0 : parseTokens (s5 ++ ([] : List String) ++ tail) =
        (some (" ".intercalate s5), some (" ".intercalate ([] : List String)), lf) :=
      parseTokens_split s5 [] tail lf h5 (by simpa using hlen) (by simp) ht
    simpa [parseCrontabLine, htok] using h0
  refine ⟨hparse, ?_, ?_, ?_⟩
  · simp [lineJob, hne, hnc, hparse]
  · simp [hparse]
  · intro s5x cmd h5x hcmd
    have hlenx : 6 ≤ (s5x ++ cmd ++ [">>"]).length := by
      simp [List.length_append, h5x]
      omega
    exact parseTokens_split s5x cmd [">>"] none h5x hlenx hcmd RedirTail.lastRedir

/-- Witness for C10 at the line `* * * * * 2>&1 >> /var/log/x.log` and,
for the final-`>>` part, at the token list of `* * * * * run.sh >>`. -/
theorem redirection_only_line_c10_witness :
    lineJob "* * * * * 2>&1 >> /var/log/x.log" = none ∧
    parseTokens (["*", "*", "*", "*", "*"] ++ ["run.sh"] ++ [">>"]) =
      (some "* * * * *", some "run.sh", none) := by
  have h := redirection_only_line_c10 "* * * * * 2>&1 >> /var/log/x.log"
    ["*", "*", "*", "*", "*"] ["2>&1", ">>", "/var/log/x.log"] (some "/var/log/x.log")
    (by decide) (by decide) (by decide) (by decide) (by decide)
    (RedirTail.stderrMerge (RedirTail.redir "/var/log/x.log" []))
  refine ⟨h.2.1, ?_⟩
  have h2 := h.2.2.2 ["*", "*", "*", "*", "*"] ["run.sh"] (by decide) (by decide)
  simpa using h2

/-- Claim C5 — `add_job` on a name already registered replaces the stored
definition, resets the retry counter to 0, and leaves exactly one
scheduled trigger with that id (the new cron trigger), the old one having
been cancelled; all triggers with other ids are untouched; and a second
`add_job` with the same name and definition leaves the whole scheduler
state unchanged (so in particular still exactly one trigger and the
counter at 0). -/
theorem add_job_replace_idempotent_c5 (name : String) (cfg old : JobConfig) (s : Sched)
    (h : dlookup name s.jobs = some old) :
    dlookup name (add_job name cfg s).jobs = some cfg ∧
    dlookup name (add_job name cfg s).job_retries = some 0 ∧
    (add_job name cfg s).triggers.filter (fun t => t.id = name) =
      [⟨name, .cron cfg.schedule, name⟩] ∧
    (add_job name cfg s).triggers.filter (fun t => t.id ≠ name) =
      s.triggers.filter (fun t => t.id ≠ name) ∧
    add_job name cfg (add_job name cfg s) = add_job name cfg s := by
  have hsome : (dlookup name s.jobs).isSome := by simp [h]
  refine ⟨dlookup_dinsert_self name cfg s.jobs,
          dlookup_dinsert_self name 0 s.job_retries, ?_, ?_, ?_⟩
  · simp [add_job, hsome, List.filter_filter]
  · simp [add_job, hsome, List.filter_filter]
  · have hsome2 : (dlookup name (dinsert name cfg s.jobs)).isSome := by
      simp [dlookup_dinsert_self]
    simp [add_job, hsome, hsome2, dinsert_dinsert, List.filter_append,
      List.filter_filter, Sched.mk.injEq]

/-- Witness for C5: re-adding job `j` over an existing definition in a
concrete one-job state. -/
theorem add_job_replace_idempotent_c5_witness :
    dlookup "j" (add_job "j" ⟨"*/2 * * * *", "run.sh", none, 3⟩
      (⟨[("j", ⟨"* * * * *", "cmd", none, 3⟩)], [("j", 2)], [], [],
        [⟨"j", .cron "* * * * *", "j"⟩], 0, 0, 0, 0⟩ : Sched)).job_retries = some 0 := by
  have h := add_job_replace_idempotent_c5 "j" ⟨"*/2 * * * *", "run.sh", none, 3⟩
    ⟨"* * * * *", "cmd", none, 3⟩
    (⟨[("j", ⟨"* * * * *", "cmd", none, 3⟩)], [("j", 2)], [], [],
      [⟨"j", .cron "* * * * *", "j"⟩], 0, 0, 0, 0⟩ : Sched) (by decide)
  exact h.2.1

/-- Claim C2 — with `retries = 3`, three consecutive failed runs escalate
exactly on the third (not the first or second); two failures followed by
an exit-0 run reset the counter to 0 with no escalation anywhere; and in
general a failed run sets the counter to `r + 1` and invokes the
escalator if and only if `r + 1` has reached or exceeded `retries`. -/
theorem retry_escalation_boundary_c2 :
    (let st : Sched := ⟨[("j", ⟨"* * * * *", "cmd", none, 3⟩)], [("j", 0)], [], [],
        [⟨"j", .cron "* * * * *", "j"⟩], 0, 0, 0, 0⟩
     let r1 := executeJob "t1" true 1 "p" "j" st
     let r2 := executeJob "t2" true 1 "p" "j" r1.1
     let r3 := executeJob "t3" true 1 "p" "j" r2.1
     Event.escalated "j" ∉ r1.2 ∧ Event.escalated "j" ∉ r2.2 ∧
       Event.escalated "j" ∈ r3.2) ∧
    (let st : Sched := ⟨[("j", ⟨"* * * * *", "cmd", none, 3⟩)], [("j", 0)], [], [],
        [⟨"j", .cron "* * * * *", "j"⟩], 0, 0, 0, 0⟩
     let r1 := executeJob "t1" true 1 "p" "j" st
     let r2 := executeJob "t2" true 1 "p" "j" r1.1
     let r3 := executeJob "t3" true 0 "p" "j" r2.1
     dlookup "j" r3.1.job_retries = some 0 ∧
       Event.escalated "j" ∉ r1.2 ∧ Event.escalated "j" ∉ r2.2 ∧
       Event.escalated "j" ∉ r3.2) ∧
    (∀ (now : String) (api : Bool) (ec : Nat) (pod name : String) (s : Sched)
        (cfg : JobConfig) (r : Nat),
      dlookup name s.jobs = some cfg → dlookup name s.job_retries = some r →
      dlookup name s.running_jobs = none → ec ≠ 0 →
      dlookup name (executeJob now api ec pod name s).1.job_retries = some (r + 1) ∧
      (Event.escalated name ∈ (executeJob now api ec pod name s).2 ↔
        cfg.retries ≤ r + 1)) := by
  refine ⟨by decide, by decide, ?_⟩
  intro now api ec pod name s cfg r hj hr hnr hec
  rw [executeJob_failure now api ec pod name s cfg r hj hr hnr hec]
  refine ⟨dlookup_dinsert_self name (r + 1) s.job_retries, ?_⟩
  by_cases hb : cfg.retries ≤ r + 1
  · simp [hb]
  · simp [hb]

/-- Witness for the general clause of C2: a failed run at counter 2 with
`retries = 3` escalates and sets the counter to 3. -/
theorem retry_escalation_boundary_c2_witness :
    dlookup "j" (executeJob "t" true 7 "p" "j"
      (⟨[("j", ⟨"* * * * *", "cmd", none, 3⟩)], [("j", 2)], [], [],
        [⟨"j", .cron "* * * * *", "j"⟩], 0, 0, 0, 0⟩ : Sched)).1.job_retries =
      some 3 ∧
    Event.escalated "j" ∈ (executeJob "t" true 7 "p" "j"
      (⟨[("j", ⟨"* * * * *", "cmd", none, 3⟩)], [("j", 2)], [], [],
        [⟨"j", .cron "* * * * *", "j"⟩], 0, 0, 0, 0⟩ : Sched)).2 := by
  have h := retry_escalation_boundary_c2.2.2 "t" true 7 "p" "j"
    (⟨[("j", ⟨"* * * * *", "cmd", none, 3⟩)], [("j", 2)], [], [],
      [⟨"j", .cron "* * * * *", "j"⟩], 0, 0, 0, 0⟩ : Sched)
    ⟨"* * * * *", "cmd", none, 3⟩ 2 (by decide) (by decide) (by decide) (by decide)
  exact ⟨h.1, h.2.mpr (by decide)⟩

/-- Claim C7, counterexample — a job with `retries = 1` fails once: the run
takes the escalation branch (the escalator is invoked), yet the
retry-attempt metric is still incremented, contradicting the claim that
the metric is incremented only on the `RetryPending` branch (new count
strictly below `max_retries`) and not on the escalation branch.  The
code increments `JOB_RETRY_COUNTER` on every failure before the
retry-vs-escalate comparison. -/
theorem retry_metric_c7_counterexample :
    let st : Sched := ⟨[("j", ⟨"* * * * *", "cmd", none, 1⟩)], [("j", 0)], [], [],
        [⟨"j", .cron "* * * * *", "j"⟩], 0, 0, 0, 0⟩
    let res := executeJob "t1" true 1 "p" "j" st
    Event.escalated "j" ∈ res.2 ∧ res.1.retryCount = st.retryCount + 1 := by
  decide

/-- Claim C7 as amended — the retry-attempt metric counter is incremented on
every failed execution, whether the run transitions to `RetryPending` or
to `Escalated` (the increment precedes the branch), and is not
incremented on a successful execution. -/
theorem retry_metric_every_failure_c7 (now : String) (api : Bool) (ec : Nat)
    (pod name : String) (s : Sched) (cfg : JobConfig) (r : Nat)
    (hj : dlookup name s.jobs = some cfg)
    (hr : dlookup name s.job_retries = some r)
    (hnr : dlookup name s.running_jobs = none) :
    (ec ≠ 0 → (executeJob now api ec pod name s).1.retryCount = s.retryCount + 1) ∧
    (executeJob now api 0 pod name s).1.retryCount = s.retryCount := by
  constructor
  · intro hec
    rw [executeJob_failure now api ec pod name s cfg r hj hr hnr hec]
  · rw [executeJob_success now api pod name s cfg hj hnr]

/-- Witness for C7 (amended): a failing run at counter 0 with
`retries = 3` (the `RetryPending` branch) increments the metric, a
succeeding run does not. -/
theorem retry_metric_every_failure_c7_witness :
    (executeJob "t" true 5 "p" "j"
      (⟨[("j", ⟨"* * * * *", "cmd", none, 3⟩)], [("j", 0)], [], [],
        [⟨"j", .cron "* * * * *", "j"⟩], 0, 0, 0, 0⟩ : Sched)).1.retryCount = 0 + 1 ∧
    (executeJob "t" true 0 "p" "j"
      (⟨[("j", ⟨"* * * * *", "cmd", none, 3⟩)], [("j", 0)], [], [],
        [⟨"j", .cron "* * * * *", "j"⟩], 0, 0, 0, 0⟩ : Sched)).1.retryCount = 0 := by
  have h := retry_metric_every_failure_c7 "t" true 5 "p" "j"
    (⟨[("j", ⟨"* * * * *", "cmd", none, 3⟩)], [("j", 0)], [], [],
      [⟨"j", .cron "* * * * *", "j"⟩], 0, 0, 0, 0⟩ : Sched)
    ⟨"* * * * *", "cmd", none, 3⟩ 0 (by decide) (by decide) (by decide)
  exact ⟨h.1 (by decide), h.2⟩

/-- Claim C9 — the retry counter is set to 0 only by `add_job` and by an
exit-0 execution; a failed execution always sets it to `r + 1`
(the escalation branch neither resets nor removes it), so once the
counter has reached `max_retries` and the process survived the
escalation, every subsequent failed execution of the job invokes the
escalator again and keeps the counter at or above `max_retries`. -/
theorem escalation_not_terminal_c9 (now : String) (api : Bool) (ec : Nat)
    (pod name : String) (s : Sched) (cfg : JobConfig) (r : Nat)
    (hj : dlookup name s.jobs = some cfg)
    (hr : dlookup name s.job_retries = some r)
    (hnr : dlookup name s.running_jobs = none) :
    (∀ (cfg2 : JobConfig) (s2 : Sched),
      dlookup name (add_job name cfg2 s2).job_retries = some 0) ∧
    dlookup name (executeJob now api 0 pod name s).1.job_retries = some 0 ∧
    (ec ≠ 0 →
      dlookup name (executeJob now api ec pod name s).1.job_retries = some (r + 1) ∧
      some (r + 1) ≠ some 0) ∧
    (ec ≠ 0 → cfg.retries ≤ r →
      Event.escalated name ∈ (executeJob now api ec pod name s).2 ∧
      dlookup name (executeJob now api ec pod name s).1.job_retries = some (r + 1) ∧
      cfg.retries ≤ r + 1) := by
  refine ⟨fun cfg2 s2 => dlookup_dinsert_self name 0 s2.job_retries, ?_, ?_, ?_⟩
  · rw [executeJob_success now api pod name s cfg hj hnr]
    exact dlookup_dinsert_self name 0 s.job_retries
  · intro hec
    rw [executeJob_failure now api ec pod name s cfg r hj hr hnr hec]
    exact ⟨dlookup_dinsert_self name (r + 1) s.job_retries, by simp⟩
  · intro hec hge
    have hb : cfg.retries ≤ r + 1 := Nat.le_succ_of_le hge
    rw [executeJob_failure now api ec pod name s cfg r hj hr hnr hec]
    exact ⟨by simp [hb], dlookup_dinsert_self name (r + 1) s.job_retries, hb⟩

/-- Witness for C9: job `j` with `retries = 1` and counter already at 1
(a survived escalation); a further failing run escalates again and moves
the counter to 2. -/
theorem escalation_not_terminal_c9_witness :
    Event.escalated "j" ∈ (executeJob "t" false 9 "p" "j"
      (⟨[("j", ⟨"* * * * *", "cmd", none, 1⟩)], [("j", 1)], [], [],
        [⟨"j", .cron "* * * * *", "j"⟩], 0, 0, 0, 0⟩ : Sched)).2 ∧
    dlookup "j" (executeJob "t" false 9 "p" "j"
      (⟨[("j", ⟨"* * * * *", "cmd", none, 1⟩)], [("j", 1)], [], [],
        [⟨"j", .cron "* * * * *", "j"⟩], 0, 0, 0, 0⟩ : Sched)).1.job_retries = some 2 := by
  have h := escalation_not_terminal_c9 "t" false 9 "p" "j"
    (⟨[("j", ⟨"* * * * *", "cmd", none, 1⟩)], [("j", 1)], [], [],
      [⟨"j", .cron "* * * * *", "j"⟩], 0, 0, 0, 0⟩ : Sched)
    ⟨"* * * * *", "cmd", none, 1⟩ 1 (by decide) (by decide) (by decide)
  have h4 := h.2.2.2 (by decide) (by decide)
  exact ⟨h4.1, h4.2.1⟩

/-- Claim C6, counterexample — job `j` (`retries = 1`) fails and escalates
while the Kubernetes deletion request fails (`api = false`): the
escalation failure is hit, yet `j`'s cron trigger is still registered
afterwards — the job does *not* "remain unscheduled"; nothing in
`_execute_job` or `_handle_job_failure` removes the trigger, so the job
keeps firing on its schedule. -/
theorem escalator_failure_c6_counterexample :
    let st : Sched := ⟨[("j", ⟨"* * * * *", "cmd", none, 1⟩)], [("j", 0)], [], [],
        [⟨"j", .cron "* * * * *", "j"⟩], 0, 0, 0, 0⟩
    let res := executeJob "t1" false 1 "p" "j" st
    Event.escalated "j" ∈ res.2 ∧ Event.apiCallFailed "p" ∈ res.2 ∧
    res.1.triggers = st.triggers ∧
    (⟨"j", .cron "* * * * *", "j"⟩ : Trigger) ∈ res.1.triggers := by
  decide

/-- Claim C6 as amended — when the escalator's node-deletion request fails
with an API error, the failure is logged (the `except` branch of
`_handle_job_failure` is taken), escalation is not retried (exactly one
API attempt appears in the run), the exception does not propagate (the
`finally` block still runs, leaving the running-jobs map cleaned up and
the run completing normally) — but the job remains *scheduled*: its cron
trigger is untouched and it continues to fire until the next manual or
orchestrator-driven restart. -/
theorem escalator_failure_logged_c6 (now : String) (ec : Nat) (pod name : String)
    (s : Sched) (cfg : JobConfig) (r : Nat)
    (hj : dlookup name s.jobs = some cfg)
    (hr : dlookup name s.job_retries = some r)
    (hnr : dlookup name s.running_jobs = none)
    (hec : ec ≠ 0) (hb : cfg.retries ≤ r + 1) :
    Event.apiCallFailed pod ∈ (executeJob now false ec pod name s).2 ∧
    (executeJob now false ec pod name s).2.count (Event.apiCall pod) = 1 ∧
    (executeJob now false ec pod name s).1.triggers = s.triggers ∧
    (executeJob now false ec pod name s).2.getLast? =
      some (Event.savedState s.running_jobs) ∧
    (executeJob now false ec pod name s).1.running_jobs = s.running_jobs := by
  rw [executeJob_failure now false ec pod name s cfg r hj hr hnr hec]
  refine ⟨by simp [hb, handleJobFailure], ?_, rfl, ?_, rfl⟩
  · simp [hb, handleJobFailure, List.count_append, List.count_cons, List.count_nil]
  · exact List.getLast?_concat _

/-- Witness for C6 (amended) at the concrete escalation-failure run of
the counterexample state. -/
theorem escalator_failure_logged_c6_witness :
    Event.apiCallFailed "p" ∈ (executeJob "t1" false 1 "p" "j"
      (⟨[("j", ⟨"* * * * *", "cmd", none, 1⟩)], [("j", 0)], [], [],
        [⟨"j", .cron "* * * * *", "j"⟩], 0, 0, 0, 0⟩ : Sched)).2 ∧
    (executeJob "t1" false 1 "p" "j"
      (⟨[("j", ⟨"* * * * *", "cmd", none, 1⟩)], [("j", 0)], [], [],
        [⟨"j", .cron "* * * * *", "j"⟩], 0, 0, 0, 0⟩ : Sched)).1.triggers =
      [⟨"j", .cron "* * * * *", "j"⟩] := by
  have h := escalator_failure_logged_c6 "t1" 1 "p" "j"
    (⟨[("j", ⟨"* * * * *", "cmd", none, 1⟩)], [("j", 0)], [], [],
      [⟨"j", .cron "* * * * *", "j"⟩], 0, 0, 0, 0⟩ : Sched)
    ⟨"* * * * *", "cmd", none, 1⟩ 0 (by decide) (by decide) (by decide)
    (by decide) (by decide)
  exact ⟨h.1, h.2.2.1⟩

/-- Claim C1 — bracketing of the RunningJobRecord around one `_execute_job`
run: the very first event is the state save whose snapshot contains `J`'s
record, it precedes the command launch; the very last event is the state
save whose snapshot no longer contains the record, after the exit has
been classified (the only events between launch-exit and the final save
are escalation events — there is no other save and no other launch, so
the persisted map contains the record throughout command execution); and
afterwards the record is absent from both the in-memory and the persisted
map.  This holds on the success, retry, and escalation paths alike. -/
theorem running_record_bracketing_c1 (now : String) (api : Bool) (ec : Nat)
    (pod name : String) (s : Sched) (cfg : JobConfig) (r : Nat)
    (hj : dlookup name s.jobs = some cfg)
    (hr : dlookup name s.job_retries = some r)
    (hnr : dlookup name s.running_jobs = none) :
    ∃ mid : List Event,
      (executeJob now api ec pod name s).2 =
        [Event.savedState (s.running_jobs ++ [(name, ⟨now, cfg.command⟩)]),
         Event.launched cfg.command, Event.exited ec] ++ mid ++
        [Event.savedState s.running_jobs] ∧
      (∀ e ∈ mid, (∀ m, e ≠ Event.savedState m) ∧ (∀ c, e ≠ Event.launched c)) ∧
      dlookup name (s.running_jobs ++ [(name, ⟨now, cfg.command⟩)]) =
        some ⟨now, cfg.command⟩ ∧
      (executeJob now api ec pod name s).1.persisted = s.running_jobs ∧
      (executeJob now api ec pod name s).1.running_jobs = s.running_jobs ∧
      dlookup name (executeJob now api ec pod name s).1.persisted = none := by
  have hlk : dlookup name (s.running_jobs ++ [(name, (⟨now, cfg.command⟩ : RunRecord))]) =
      some ⟨now, cfg.command⟩ := dlookup_append_single_self _ hnr
  by_cases hec : ec = 0
  · subst hec
    rw [executeJob_success now api pod name s cfg hj hnr]
    exact ⟨[], by simp, by simp, hlk, rfl, rfl, hnr⟩
  · rw [executeJob_failure now api ec pod name s cfg r hj hr hnr hec]
    refine ⟨if cfg.retries ≤ r + 1 then Event.escalated name :: handleJobFailure api pod
            else [], by simp, ?_, hlk, rfl, rfl, hnr⟩
    intro e he
    by_cases hb : cfg.retries ≤ r + 1
    · simp only [hb, if_true] at he
      rcases List.mem_cons.mp he with h1 | h2
      · subst h1
        exact ⟨fun m => by simp, fun c => by simp⟩
      · cases api with
        | false =>
          simp [handleJobFailure] at h2
          rcases h2 with h3 | h3 <;> subst h3 <;>
            exact ⟨fun m => by simp, fun c => by simp⟩
        | true =>
          simp [handleJobFailure] at h2
          subst h2
          exact ⟨fun m => by simp, fun c => by simp⟩
    · simp [hb] at he

/-- Witness for C1 at a concrete failing run of job `j`. -/
theorem running_record_bracketing_c1_witness :
    ∃ mid : List Event,
      (executeJob "t1" true 1 "p" "j"
        (⟨[("j", ⟨"* * * * *", "cmd", none, 3⟩)], [("j", 0)], [], [],
          [⟨"j", .cron "* * * * *", "j"⟩], 0, 0, 0, 0⟩ : Sched)).2 =
        [Event.savedState ([] ++ [("j", ⟨"t1", "cmd"⟩)]),
         Event.launched "cmd", Event.exited 1] ++ mid ++
        [Event.savedState []] ∧
      (∀ e ∈ mid, (∀ m, e ≠ Event.savedState m) ∧ (∀ c, e ≠ Event.launched c)) ∧
      dlookup "j" ([] ++ [("j", (⟨"t1", "cmd"⟩ : RunRecord))]) = some ⟨"t1", "cmd"⟩ ∧
      (executeJob "t1" true 1 "p" "j"
        (⟨[("j", ⟨"* * * * *", "cmd", none, 3⟩)], [("j", 0)], [], [],
          [⟨"j", .cron "* * * * *", "j"⟩], 0, 0, 0, 0⟩ : Sched)).1.persisted = [] ∧
      (executeJob "t1" true 1 "p" "j"
        (⟨[("j", ⟨"* * * * *", "cmd", none, 3⟩)], [("j", 0)], [], [],
          [⟨"j", .cron "* * * * *", "j"⟩], 0, 0, 0, 0⟩ : Sched)).1.running_jobs = [] ∧
      dlookup "j" ((executeJob "t1" true 1 "p" "j"
        (⟨[("j", ⟨"* * * * *", "cmd", none, 3⟩)], [("j", 0)], [], [],
          [⟨"j", .cron "* * * * *", "j"⟩], 0, 0, 0, 0⟩ : Sched)).1.persisted) = none := by
  exact running_record_bracketing_c1 "t1" true 1 "p" "j"
    (⟨[("j", ⟨"* * * * *", "cmd", none, 3⟩)], [("j", 0)], [], [],
      [⟨"j", .cron "* * * * *", "j"⟩], 0, 0, 0, 0⟩ : Sched)
    ⟨"* * * * *", "cmd", none, 3⟩ 0 (by decide) (by decide) (by decide)

/-- Claim C3 — `_recover_interrupted_jobs`: every loaded running-jobs entry
whose name is still in the registry contributes exactly one immediate
one-shot (`date`) trigger `recovery_<name>` (the new trigger ids are
distinct and none of them collides with a pre-existing trigger, so each
such entry has exactly one scheduled invocation) and one recovery-counter
increment; entries whose name is not in the registry contribute no
trigger at all; afterwards both the in-memory and the persisted
running-jobs maps are empty, and the registry and retry counters are
untouched. -/
theorem recovery_reconciliation_c3 (s : Sched)
    (hn : (s.running_jobs.map Prod.fst).Nodup)
    (hclean : ∀ t ∈ s.triggers, ∀ p ∈ s.running_jobs, t.id ≠ "recovery_" ++ p.1) :
    (recoverInterruptedJobs s).triggers =
      s.triggers ++ (s.running_jobs.filter (fun p => (dlookup p.1 s.jobs).isSome)).map
        (fun p => ⟨"recovery_" ++ p.1, .date, p.1⟩) ∧
    (recoverInterruptedJobs s).recovCount =
      s.recovCount +
        (s.running_jobs.filter (fun p => (dlookup p.1 s.jobs).isSome)).length ∧
    (recoverInterruptedJobs s).running_jobs = [] ∧
    (recoverInterruptedJobs s).persisted = [] ∧
    (recoverInterruptedJobs s).jobs = s.jobs ∧
    (recoverInterruptedJobs s).job_retries = s.job_retries ∧
    ((s.running_jobs.filter (fun p => (dlookup p.1 s.jobs).isSome)).map
        (fun p => "recovery_" ++ p.1)).Nodup ∧
    (∀ t ∈ s.triggers,
      "recovery_" ++ t.arg = t.id →
      t.id ∉ (s.running_jobs.filter (fun p => (dlookup p.1 s.jobs).isSome)).map
        (fun p => "recovery_" ++ p.1)) ∧
    (∀ p ∈ s.running_jobs, dlookup p.1 s.jobs = none →
      ∀ t ∈ (recoverInterruptedJobs s).triggers, t.id ≠ "recovery_" ++ p.1) := by
  have hfold := recovery_foldl s.jobs s.running_jobs s.triggers s.recovCount hn hclean
  have htrig : (recoverInterruptedJobs s).triggers =
      s.triggers ++ (s.running_jobs.filter (fun p => (dlookup p.1 s.jobs).isSome)).map
        (fun p => ⟨"recovery_" ++ p.1, .date, p.1⟩) := by
    simp [recoverInterruptedJobs, hfold]
  have hnodup : ((s.running_jobs.filter (fun p => (dlookup p.1 s.jobs).isSome)).map
      (fun p => "recovery_" ++ p.1)).Nodup := by
    have h1 : ((s.running_jobs.filter
        (fun p => (dlookup p.1 s.jobs).isSome)).map Prod.fst).Nodup :=
      hn.sublist ((List.filter_sublist _).map Prod.fst)
    have h2 : (s.running_jobs.filter (fun p => (dlookup p.1 s.jobs).isSome)).map
        (fun p => "recovery_" ++ p.1) =
        ((s.running_jobs.filter (fun p => (dlookup p.1 s.jobs).isSome)).map
          Prod.fst).map (fun a => "recovery_" ++ a) := by
      rw [List.map_map]
      rfl
    rw [h2]
    exact h1.map (fun a b h => string_append_left_cancel h)
  refine ⟨htrig, by simp [recoverInterruptedJobs, hfold], rfl, rfl, rfl, rfl, hnodup,
    ?_, ?_⟩
  · intro t htm _ hmem
    rcases List.mem_map.mp hmem with ⟨p, hp, hid⟩
    exact hclean t htm p (List.mem_of_mem_filter hp) hid.symm
  · intro p hp hnone t htm heq
    rw [htrig] at htm
    rcases List.mem_append.mp htm with h1 | h2
    · exact hclean t h1 p hp heq
    · rcases List.mem_map.mp h2 with ⟨q, hq, hqt⟩
      have hqid : "recovery_" ++ q.1 = "recovery_" ++ p.1 := by
        rw [← heq, ← hqt]
      have hq1 : q.1 = p.1 := string_append_left_cancel hqid
      have hqsome : (dlookup q.1 s.jobs).isSome := by
        have h3 := (List.mem_filter.mp hq).2
        simpa using h3
      rw [hq1, hnone] at hqsome
      simp at hqsome

/-- Witness for C3: one interrupted record for a registered job `j` and
one for a job `gone` absent from the registry. -/
theorem recovery_reconciliation_c3_witness :
    (recoverInterruptedJobs
      (⟨[("j", ⟨"* * * * *", "cmd", none, 3⟩)], [("j", 0)],
        [("j", ⟨"t0", "cmd"⟩), ("gone", ⟨"t0", "x"⟩)],
        [("j", ⟨"t0", "cmd"⟩), ("gone", ⟨"t0", "x"⟩)],
        [⟨"j", .cron "* * * * *", "j"⟩], 0, 0, 0, 0⟩ : Sched)).triggers =
      [⟨"j", .cron "* * * * *", "j"⟩] ++ [⟨"recovery_j", .date, "j"⟩] ∧
    (recoverInterruptedJobs
      (⟨[("j", ⟨"* * * * *", "cmd", none, 3⟩)], [("j", 0)],
        [("j", ⟨"t0", "cmd"⟩), ("gone", ⟨"t0", "x"⟩)],
        [("j", ⟨"t0", "cmd"⟩), ("gone", ⟨"t0", "x"⟩)],
        [⟨"j", .cron "* * * * *", "j"⟩], 0, 0, 0, 0⟩ : Sched)).recovCount = 0 + 1 ∧
    (recoverInterruptedJobs
      (⟨[("j", ⟨"* * * * *", "cmd", none, 3⟩)], [("j", 0)],
        [("j", ⟨"t0", "cmd"⟩), ("gone", ⟨"t0", "x"⟩)],
        [("j", ⟨"t0", "cmd"⟩), ("gone", ⟨"t0", "x"⟩)],
        [⟨"j", .cron "* * * * *", "j"⟩], 0, 0, 0, 0⟩ : Sched)).persisted = [] := by
  have h := recovery_reconciliation_c3
    (⟨[("j", ⟨"* * * * *", "cmd", none, 3⟩)], [("j", 0)],
      [("j", ⟨"t0", "cmd"⟩), ("gone", ⟨"t0", "x"⟩)],
      [("j", ⟨"t0", "cmd"⟩), ("gone", ⟨"t0", "x"⟩)],
      [⟨"j", .cron "* * * * *", "j"⟩], 0, 0, 0, 0⟩ : Sched)
    (by decide) (by decide)
  refine ⟨?_, ?_, h.2.2.2.1⟩
  · rw [h.1]
    decide
  · rw [h.2.1]
    decide

end KuberCron
